import Mathlib

/-!
Verification development for the automatic-refactoring script
(`src/scripts/script_openai.py`).  The script is a sequential pipeline:
resolve a GitHub repository, pick files from its tree, ask an LLM for a
smell report and a rewritten file, push a timestamped branch, and open a
pull request.  Every definition below is a shallow embedding of the
corresponding Python function; network and console effects are recorded
as an explicit event trace, and Python exceptions are modelled with
`Except String`.
-/

namespace AutoRefactor

/-- One entry of the recursive git tree returned by `repo.get_git_tree`. -/
structure TreeItem where
  type : String
  path : String
deriving DecidableEq, Repr

/-- Index of the last `/` in a character list, if any (Python `str.rfind`). -/
def lastSlashIdx (cs : List Char) : Option Nat :=
  match cs.reverse.findIdx? (· = '/') with
  | none => none
  | some j => some (cs.length - 1 - j)

/-- `os.path.dirname` for POSIX paths: everything before the final `/`,
with trailing slashes stripped unless the head is all slashes. -/
def dirname (p : String) : String :=
  let cs := p.data
  match lastSlashIdx cs with
  | none => ""
  | some i =>
    let head := cs.take (i + 1)
    if head ≠ [] ∧ ¬ head.all (· = '/') then
      String.mk ((head.reverse.dropWhile (· = '/')).reverse)
    else
      String.mk head

/-- The filter on tree entries at line 60 of the script:
`item.type == "blob" and item.path.endswith(".java")` (in Python
`endswith` is a suffix test on code points). -/
def isJavaBlob (item : TreeItem) : Bool :=
  item.type == "blob" && List.isSuffixOf ".java".data item.path.data

/-- Python `dict` insertion into `dir_files`: append the path to the entry
for key `d`, creating the entry at the end if the key is new (dicts keep
insertion order). -/
def addToDir (acc : List (String × List String)) (d : String) (p : String) :
    List (String × List String) :=
  match acc with
  | [] => [(d, [p])]
  | (k, v) :: rest =>
    if k = d then (k, v ++ [p]) :: rest else (k, v) :: addToDir rest d p

/-- One step of the grouping loop at lines 59-64 of the script. -/
def groupStep (acc : List (String × List String)) (item : TreeItem) :
    List (String × List String) :=
  if isJavaBlob item then addToDir acc (dirname item.path) item.path else acc

/-- The `dir_files` dictionary: `.java` blobs grouped by parent directory. -/
def groupByDir (tree : List TreeItem) : List (String × List String) :=
  tree.foldl groupStep []

/-- A file-content object returned by `repo.get_contents`: its git sha and
its decoded content. -/
structure FileObj where
  sha : String
  content : String
deriving DecidableEq, Repr

/-- The PyGithub repository handle, restricted to the fields the script
reads.  `contents` maps a path to the file object the host returns for it
(`none` models the 404 exception for a missing path); a branch created
during a run starts from the commit of the base branch, so content lookup is
modelled per path.  `branchSha` maps a branch name to its head commit sha. -/
structure Repo where
  fullName : String
  ownerLogin : String
  fork : Bool
  parent : Option String
  default_branch : String
  tree : List TreeItem
  contents : String → Option FileObj
  branchSha : String → Option String

instance {e a : Type} [DecidableEq e] [DecidableEq a] : DecidableEq (Except e a)
  | .error x, .error y =>
    if h : x = y then .isTrue (by rw [h]) else .isFalse (by simp [h])
  | .error _, .ok _ => .isFalse (by simp)
  | .ok _, .error _ => .isFalse (by simp)
  | .ok x, .ok y =>
    if h : x = y then .isTrue (by rw [h]) else .isFalse (by simp [h])

/-- The process environment: the two variables the script reads. -/
structure Env where
  token : Option String
  openai_key : Option String

/-- Python truthiness test `not x` for an optional string: true when the
variable is unset or empty. -/
def pyFalsy : Option String → Bool
  | none => true
  | some s => s == ""

/-- Observable actions of one run: network calls to the source-control
host, LLM requests, and console prints. -/
inductive Event where
  | connect (repoName : String)
  | getTree (branch : String)
  | getContents (path : String)
  | getBranch (branch : String)
  | createRef (ref sha : String)
  | updateFile (path message content sha branch : String)
  | createPull (targetRepo head base title body : String)
  | llmCall (prompt role : String)
  | printMsg (msg : String)
deriving DecidableEq, Repr

/-- Is the event an actual LLM API request? -/
def Event.isLlm : Event → Bool
  | .llmCall _ _ => true
  | _ => false

/-- Is the event a branch-ref creation? -/
def Event.isCreateRef : Event → Bool
  | .createRef _ _ => true
  | _ => false

/-- Is the event a file update (commit)? -/
def Event.isUpdate : Event → Bool
  | .updateFile _ _ _ _ _ => true
  | _ => false

/-- Is the event a pull-request creation? -/
def Event.isPull : Event → Bool
  | .createPull _ _ _ _ _ => true
  | _ => false

/-- The repository identifier hard-coded at line 38 of the script. -/
def repoNameConst : String := "Sanchit27-jalan/SE-Project-1"

/-- `get_repo`: reads `TOKEN`, raises before any network call when it is
unset or empty (the `repo_name` constant is never falsy), then builds the
client and resolves the repository — the first network call. -/
def get_repo (env : Env) (repo : Repo) : List Event × Except String Repo :=
  if pyFalsy env.token || (repoNameConst == "") then
    ([], .error "TOKEN and REPOSITORY must be set as environment variables.")
  else
    ([.connect repoNameConst,
      .printMsg ("Connected to GitHub repository: " ++ repoNameConst)],
     .ok repo)

/-- The randomness consumed by `pick_files`: the index drawn by
`random.choice` over the directory keys, and the `random.sample`
function itself, kept abstract. -/
structure Rng where
  dirChoice : Nat
  sampler : List String → Nat → List String

/-- First path of the hard-coded override at line 74 of the script. -/
def hardcoded1 : String :=
  "reader-core/src/main/java/com/sismics/reader/core/dao/file/rss/RssReader.java"

/-- Second path of the hard-coded override at line 74 of the script. -/
def hardcoded2 : String :=
  "reader-core/src/main/java/com/sismics/reader/core/service/FeedService.java"

/-- `pick_files`: list the recursive tree, group `.java` blobs by parent
directory, return `[]` when no blob matches, otherwise draw a directory
and a sample — which line 74 then unconditionally overwrites with the
fixed two-file list.  Returns the trace of events and the selection. -/
def pick_files (repo : Repo) (branch : Option String) (count : Nat)
    (rng : Rng) : List Event × List String :=
  let branch := match branch with
    | none => repo.default_branch
    | some b => b
  let dir_files := groupByDir repo.tree
  if dir_files.isEmpty then
    ([.getTree branch], [])
  else
    let keys := dir_files.map Prod.fst
    let target_dir := keys.getD (rng.dirChoice % keys.length) ""
    let files_in_dir :=
      (((dir_files.find? (fun kv => kv.1 == target_dir)).map Prod.snd).getD [])
    let selected_files := rng.sampler files_in_dir (min count files_in_dir.length)
    let selected_files := [hardcoded1, hardcoded2]
    ([.getTree branch,
      .printMsg ("Selected files from directory \x27" ++ target_dir ++ "\x27:")] ++
      selected_files.map (fun f => .printMsg (" - " ++ f)),
     selected_files)

/-- The first LLM call: prints the prompt head, then reads
`os.environ["OPENAI_KEY"]` — a `KeyError` when the variable is absent —
and only then issues the chat-completion request.  `oracle` stands for
the remote model: the completion returned for a (prompt, role) pair. -/
def call_openai (env : Env) (oracle : String → String → String)
    (prompt : String) (role : String) : List Event × Except String String :=
  let ev1 := Event.printMsg
    ("[OpenAI - " ++ role ++ "] Prompt (first 100 chars): " ++
      prompt.take 100 ++ "...\n")
  match env.openai_key with
  | none => ([ev1], .error "KeyError: OPENAI_KEY")
  | some _ => ([ev1, .llmCall prompt role], .ok (oracle prompt role))

/-- Text of the first prompt before the embedded code (lines 88-96). -/
def dsHead : String :=
  "Analyze the following code for design smells and code quality metrics including:" ++
  "\n- Cyclomatic complexity" ++
  "\n- Lines of code" ++
  "\n- Method length" ++
  "\n- Class coupling" ++
  "\n- Number of parameters" ++
  "\n- Depth of inheritance" ++
  "\nList any issues found and provide recommendations for improvement:\n\n"

/-- Text of the first prompt after the embedded code (lines 97-98). -/
def dsTail : String :=
  "\n\nPlease provide a brief summary focusing on the most critical issues and metrics that exceed common thresholds."

/-- The design-smell prompt: fixed template around the original code. -/
def prompt_design_smells (original_code : String) : String :=
  dsHead ++ original_code ++ dsTail

/-- Text of the second prompt before the embedded smell report (line 103). -/
def rfHead : String :=
  "Based on the following detected design smells:\n"

/-- Text of the second prompt between the smell report and the code
(lines 103-105). -/
def rfMid : String :=
  "\n\nRefactor the code below to address these issues and improve code quality. Return only the complete new file content:\n\n"

/-- The refactoring prompt: the first response and the original code in a
fixed template. -/
def prompt_refactor (design_smells original_code : String) : String :=
  rfHead ++ design_smells ++ rfMid ++ original_code

/-- `refactor_file_with_llm`: fetch the file, ask for a smell report, then
ask for a rewritten file based on that report; returns both together with
the name of the LLM.  A missing path models the 404 exception of the host. -/
def refactor_file_with_llm (repo : Repo) (file_path : String) (_branch : String)
    (llm_callback : String → String → List Event × Except String String)
    (llm_name : String) :
    List Event × Except String (String × String × String) :=
  match repo.contents file_path with
  | none => ([.getContents file_path], .error ("404: " ++ file_path))
  | some obj =>
    let original_code := obj.content
    let p1 := prompt_design_smells original_code
    let (ev1, r1) := llm_callback p1 "Design Smell Finder"
    match r1 with
    | .error e => ([.getContents file_path] ++ ev1, .error e)
    | .ok design_smells =>
      let p2 := prompt_refactor design_smells original_code
      let (ev2, r2) := llm_callback p2 "Refactoring Expert"
      match r2 with
      | .error e => ([.getContents file_path] ++ ev1 ++ ev2, .error e)
      | .ok refactored_code =>
        ([.getContents file_path] ++ ev1 ++ ev2,
         .ok (design_smells, refactored_code, llm_name))

/-- A wall-clock time at second resolution, as read by
`datetime.datetime.now()`. -/
structure DateTime where
  year : Nat
  month : Nat
  day : Nat
  hour : Nat
  minute : Nat
  second : Nat
deriving DecidableEq, Repr

/-- Ranges `datetime.now()` can actually produce (four-digit year). -/
def DateTime.Valid (t : DateTime) : Prop :=
  1000 ≤ t.year ∧ t.year ≤ 9999 ∧
  1 ≤ t.month ∧ t.month ≤ 12 ∧
  1 ≤ t.day ∧ t.day ≤ 31 ∧
  t.hour ≤ 23 ∧ t.minute ≤ 59 ∧ t.second ≤ 59

instance (t : DateTime) : Decidable t.Valid := by
  unfold DateTime.Valid; infer_instance

/-- Two-digit zero-padded decimal field of `strftime` (`%m`, `%d`, `%H`,
`%M`, `%S`). -/
def pad2 (n : Nat) : String :=
  if n < 10 then "0" ++ Nat.repr n else Nat.repr n

/-- `strftime("%Y%m%d%H%M%S")` for a four-digit year. -/
def strftimeYmdHMS (t : DateTime) : String :=
  Nat.repr t.year ++ pad2 t.month ++ pad2 t.day ++
  pad2 t.hour ++ pad2 t.minute ++ pad2 t.second

/-- The branch name built at line 119 of the script. -/
def mkBranchName (now : DateTime) : String :=
  "openai-refactor-" ++ strftimeYmdHMS now

/-- The fixed commit message at line 129 of the script. -/
def commitMessageConst : String :=
  "Apply OpenAI-suggested refactorings for selected files"

/-- The update loop of `apply_refactorings_to_files` (lines 131-141):
fetch the sha of each file on the new branch and overwrite it. -/
def updateFiles (repo : Repo) (branch_name : String) :
    List (String × String) → List Event × Except String Unit
  | [] => ([], .ok ())
  | (file_path, new_content) :: rest =>
    let ev0 := Event.printMsg
      ("Updating file: " ++ file_path ++ " at repo: " ++ repo.fullName)
    match repo.contents file_path with
    | none => ([ev0, .getContents file_path], .error ("404: " ++ file_path))
    | some obj =>
      let evs := [ev0, .getContents file_path,
        .updateFile file_path commitMessageConst new_content obj.sha branch_name]
      let (evr, r) := updateFiles repo branch_name rest
      (evs ++ evr, r)

/-- `apply_refactorings_to_files`: create a timestamped branch from the
head of `master`, then commit every rewritten file onto it; returns the
branch name. -/
def apply_refactorings_to_files (repo : Repo)
    (files_updates : List (String × String)) (now : DateTime) :
    List Event × Except String String :=
  let branch_name := mkBranchName now
  let ref_name := "refs/heads/" ++ branch_name
  match repo.branchSha "master" with
  | none => ([.getBranch "master"], .error "404: master")
  | some base_sha =>
    let ev0 := [Event.getBranch "master",
      .printMsg ("Creating new branch \x27" ++ branch_name ++ "\x27 from \x27main\x27..."),
      .createRef ref_name base_sha]
    match updateFiles repo branch_name files_updates with
    | (ev1, .error e) => (ev0 ++ ev1, .error e)
    | (ev1, .ok ()) => (ev0 ++ ev1, .ok branch_name)

/-- The fixed pull-request title at line 160 of the script. -/
def prTitleConst : String := "OpenAI Refactoring: Automated Code Improvements"

/-- `create_pull_request`: when the handle is a fork with a parent, the
call targets the parent with an owner-qualified head branch; otherwise it
targets the own repository of the handle with the bare branch name. -/
def create_pull_request (repo : Repo) (branch_name : String)
    (pr_body : String) : List Event × Except String String :=
  let (target_repo, head_branch) :=
    if repo.fork && !(repo.parent == none) then
      (repo.parent.getD "", repo.ownerLogin ++ ":" ++ branch_name)
    else
      (repo.fullName, branch_name)
  ([.createPull target_repo head_branch "master" prTitleConst pr_body],
   .ok ("https://github.com/" ++ target_repo ++ "/pull/1"))

/-- Python `dict[k] = v`: overwrite in place when the key exists, append
otherwise (dicts keep insertion order). -/
def dictInsert (acc : List (String × String)) (k v : String) :
    List (String × String) :=
  match acc with
  | [] => [(k, v)]
  | (k', v') :: rest =>
    if k' = k then (k, v) :: rest else (k', v') :: dictInsert rest k v

/-- The per-file loop of `main` (lines 175-181): build the two dicts of
smell reports and rewritten contents by calling
`refactor_file_with_llm` with `call_openai` as the callback. -/
def processFiles (env : Env) (repo : Repo)
    (oracle : String → String → String)
    (ds rf : List (String × String)) :
    List String →
    List Event × Except String (List (String × String) × List (String × String))
  | [] => ([], .ok (ds, rf))
  | file_path :: rest =>
    let ev0 := Event.printMsg ("\nProcessing file: " ++ file_path)
    match refactor_file_with_llm repo file_path "master"
        (call_openai env oracle) "OpenAI" with
    | (ev1, .error e) => ([ev0] ++ ev1, .error e)
    | (ev1, .ok (smells, refactored, _)) =>
      match processFiles env repo oracle
          (dictInsert ds file_path smells)
          (dictInsert rf file_path refactored) rest with
      | (ev2, r) => ([ev0] ++ ev1 ++ ev2, r)

/-- Python `sep.join(lines)`. -/
def joinWith (sep : String) : List String → String
  | [] => ""
  | [x] => x
  | x :: xs => x ++ sep ++ joinWith sep xs

/-- The pull-request body of `main` (lines 185-191): a header line, then
per file its path, a caption, and its smell report, joined by newlines. -/
def buildPrBody (files_design_smells : List (String × String)) : String :=
  let pr_body_lines := files_design_smells.foldl
    (fun acc pd => acc ++
      ["### File: `" ++ pd.1 ++ "`", "**Design Smells Detected:**", pd.2, "\n"])
    ["## OpenAI LLM Refactoring Summary\n"]
  joinWith "\n" pr_body_lines

/-- The body of the `try` block in `main`: the five pipeline stages in order,
stopping at the first exception. -/
def runPipeline (env : Env) (repo : Repo)
    (oracle : String → String → String) (rng : Rng) (now : DateTime) :
    List Event × Except String Unit :=
  match get_repo env repo with
  | (ev0, .error e) => (ev0, .error e)
  | (ev0, .ok repo) =>
    let (ev1, selected_files) := pick_files repo (some "master") 2 rng
    if selected_files.isEmpty then
      (ev0 ++ ev1 ++ [.printMsg "No eligible files found for refactoring."],
       .ok ())
    else
      match processFiles env repo oracle [] [] selected_files with
      | (ev2, .error e) => (ev0 ++ ev1 ++ ev2, .error e)
      | (ev2, .ok (files_design_smells, files_refactored)) =>
        match apply_refactorings_to_files repo files_refactored now with
        | (ev3, .error e) => (ev0 ++ ev1 ++ ev2 ++ ev3, .error e)
        | (ev3, .ok branch_name) =>
          let pr_body := buildPrBody files_design_smells
          match create_pull_request repo branch_name pr_body with
          | (ev4, .error e) => (ev0 ++ ev1 ++ ev2 ++ ev3 ++ ev4, .error e)
          | (ev4, .ok pr_url) =>
            (ev0 ++ ev1 ++ ev2 ++ ev3 ++ ev4 ++
              [.printMsg "\nPull Request created successfully:",
               .printMsg pr_url],
             .ok ())

/-- `main`: run the pipeline under the single catch-all; any exception is
printed and swallowed, and the process exit status is 0 either way. -/
def main (env : Env) (repo : Repo) (oracle : String → String → String)
    (rng : Rng) (now : DateTime) : List Event × Nat :=
  match runPipeline env repo oracle rng now with
  | (ev, .ok ()) => (ev, 0)
  | (ev, .error e) => (ev ++ [.printMsg ("An error occurred: " ++ e)], 0)

/-- One step of reading a decimal numeral left to right. -/
def pstep (a : Nat) (c : Char) : Nat := 10 * a + (c.toNat - 48)

/-- Value of a decimal numeral, used to invert `Nat.repr`. -/
def parseDec (cs : List Char) : Nat := cs.foldl pstep 0

/-- Value of a two-character field produced by `pad2`. -/
def parse2 (s : String) : Nat :=
  match s.data with
  | [a, b] => 10 * (a.toNat - 48) + (b.toNat - 48)
  | _ => 0

/-- `needle` occurs contiguously inside `hay`. -/
def occursIn (needle hay : String) : Prop :=
  ∃ a b : String, hay = a ++ needle ++ b

/-- No LLM request, branch creation, file update, or pull-request
creation appears in the trace. -/
def noSideEffects (evs : List Event) : Bool :=
  evs.all fun e => !e.isLlm && !e.isCreateRef && !e.isUpdate && !e.isPull

/-- A deterministic stand-in for the random module. -/
def rng0 : Rng := ⟨0, fun l n => l.take n⟩

/-- A deterministic stand-in for the remote model. -/
def oracle0 : String → String → String := fun _ role => "response for " ++ role

/-- A host with no file contents: every path lookup is a 404. -/
def noContents : String → Option FileObj := fun _ => none

/-- Host contents serving the two hard-coded paths. -/
def demoContents : String → Option FileObj := fun p =>
  if p == hardcoded1 then some ⟨"sha1", "class RssReader"⟩
  else if p == hardcoded2 then some ⟨"sha2", "class FeedService"⟩
  else none

/-- A tree of two `.java` blobs under two distinct parent directories. -/
def twoDirTree : List TreeItem := [⟨"blob", "A/x.java"⟩, ⟨"blob", "B/y.java"⟩]

/-- A non-fork repository whose tree is `twoDirTree`. -/
def repoTwoDirs : Repo :=
  ⟨"me/proj", "me", false, none, "main", twoDirTree, noContents, fun _ => none⟩

/-- A repository with no `.java` blob at all. -/
def repoNoJava : Repo :=
  ⟨"me/proj", "me", false, none, "main",
   [⟨"blob", "README.md"⟩, ⟨"tree", "src"⟩], noContents, fun _ => none⟩

/-- A repository where the whole pipeline can succeed: one `.java` blob,
contents for both hard-coded paths, and a resolvable `master` branch. -/
def demoRepo : Repo :=
  ⟨"me/proj", "me", false, none, "main", [⟨"blob", "A/x.java"⟩],
   demoContents, fun b => if b == "master" then some "basesha" else none⟩

/-- A repository with an eligible blob but no retrievable contents. -/
def repoJavaNoContents : Repo :=
  ⟨"me/proj", "me", false, none, "main", [⟨"blob", "A/x.java"⟩],
   noContents, fun b => if b == "master" then some "basesha" else none⟩

/-- A handle whose fork flag is set but whose parent reference is absent
(as happens when the upstream of a fork has been deleted). -/
def repoForkNoParent : Repo :=
  ⟨"me/proj", "me", true, none, "main", [], noContents, fun _ => none⟩

/-- A fork handle with its parent present. -/
def repoForkParent : Repo :=
  ⟨"me/proj", "me", true, some "upstream/proj", "main", [], noContents,
   fun _ => none⟩

/-- Environment with both variables set. -/
def envFull : Env := ⟨some "tok", some "key"⟩

/-- Environment with `TOKEN` set but `OPENAI_KEY` absent. -/
def envNoKey : Env := ⟨some "tok", none⟩

/-- Environment with neither variable set. -/
def envNone : Env := ⟨none, none⟩

/-- A sample wall-clock time. -/
def dtA : DateTime := ⟨2026, 10, 12, 9, 30, 0⟩

/-- One second later than `dtA`. -/
def dtB : DateTime := ⟨2026, 10, 12, 9, 30, 1⟩

/-! ### Decimal formatting: `Nat.repr` round-trips through `parseDec` -/

theorem digitChar_val : ∀ m, m < 10 → (Nat.digitChar m).toNat - 48 = m := by decide

theorem tdc_parse (fuel : Nat) : ∀ n (ds : List Char) (acc : Nat), n < fuel →
    (Nat.toDigitsCore 10 fuel n ds).foldl pstep acc =
      ds.foldl pstep (acc * 10 ^ (Nat.log 10 n + 1) + n) := by
  induction fuel with
  | zero => intro n ds acc h; omega
  | succ f ih =>
    intro n ds acc h
    simp only [Nat.toDigitsCore]
    by_cases h10 : n / 10 = 0
    · have hn : n < 10 := by omega
      have hlog : Nat.log 10 n = 0 := Nat.log_eq_zero_iff.mpr (Or.inl hn)
      have hmod : n % 10 = n := Nat.mod_eq_of_lt hn
      simp only [h10, if_pos, List.foldl_cons, pstep, hmod,
        digitChar_val n hn, hlog]
      congr 1
      omega
    · have hge : 10 ≤ n := by omega
      have hlt : n / 10 < f := by omega
      rw [if_neg h10, ih (n / 10) _ acc hlt]
      simp only [List.foldl_cons, pstep,
        digitChar_val (n % 10) (Nat.mod_lt n (by norm_num))]
      congr 1
      have hlog : Nat.log 10 (n / 10) = Nat.log 10 n - 1 := Nat.log_div_base 10 n ▸ rfl
      have hpos : 0 < Nat.log 10 n := Nat.log_pos (by norm_num) hge
      have h1 : (10:Nat) ^ (Nat.log 10 n + 1) = 10 ^ (Nat.log 10 n - 1 + 1) * 10 := by
        rw [← pow_succ]; congr 1; omega
      rw [hlog, h1, ← mul_assoc]
      generalize acc * 10 ^ (Nat.log 10 n - 1 + 1) = Y
      omega

theorem tdc_length (fuel : Nat) : ∀ n (ds : List Char), n < fuel →
    (Nat.toDigitsCore 10 fuel n ds).length = (Nat.log 10 n + 1) + ds.length := by
  induction fuel with
  | zero => intro n ds h; omega
  | succ f ih =>
    intro n ds h
    simp only [Nat.toDigitsCore]
    by_cases h10 : n / 10 = 0
    · have hn : n < 10 := by omega
      have hlog : Nat.log 10 n = 0 := Nat.log_eq_zero_iff.mpr (Or.inl hn)
      simp [h10, hlog]
      omega
    · have hlt : n / 10 < f := by omega
      have hge : 10 ≤ n := by omega
      rw [if_neg h10, ih (n / 10) _ hlt]
      have hlog : Nat.log 10 (n / 10) = Nat.log 10 n - 1 := Nat.log_div_base 10 n ▸ rfl
      have hpos : 0 < Nat.log 10 n := Nat.log_pos (by norm_num) hge
      simp only [hlog, List.length_cons]
      omega

theorem parseDec_repr (n : Nat) : parseDec (Nat.repr n).data = n := by
  show parseDec ((Nat.toDigits 10 n).asString).data = n
  have hdata : ((Nat.toDigits 10 n).asString).data = Nat.toDigits 10 n := rfl
  rw [hdata]
  unfold Nat.toDigits
  unfold parseDec
  rw [tdc_parse (n + 1) n [] 0 (Nat.lt_succ_self n)]
  simp

theorem repr_inj {m n : Nat} (h : Nat.repr m = Nat.repr n) : m = n := by
  have := congrArg (fun s => parseDec s.data) h
  simpa [parseDec_repr] using this

theorem repr_data_length (n : Nat) : (Nat.repr n).data.length = Nat.log 10 n + 1 := by
  show ((Nat.toDigits 10 n).asString).data.length = _
  have hdata : ((Nat.toDigits 10 n).asString).data = Nat.toDigits 10 n := rfl
  rw [hdata]
  unfold Nat.toDigits
  rw [tdc_length (n + 1) n [] (Nat.lt_succ_self n)]
  simp

theorem year_len {y : Nat} (h1 : 1000 ≤ y) (h2 : y ≤ 9999) :
    (Nat.repr y).data.length = 4 := by
  rw [repr_data_length]
  have e3 : (10:Nat) ^ 3 ≤ y := by norm_num; omega
  have e4 : y < (10:Nat) ^ (3 + 1) := by norm_num; omega
  have := Nat.log_eq_of_pow_le_of_lt_pow e3 e4
  omega

/-! ### The timestamp format is injective on valid datetimes -/

theorem pad2_data_len : ∀ n, n < 100 → (pad2 n).data.length = 2 := by decide

theorem parse2_pad2 : ∀ n, n < 100 → parse2 (pad2 n) = n := by decide

theorem pad2_inj {m n : Nat} (hm : m < 100) (hn : n < 100)
    (h : pad2 m = pad2 n) : m = n := by
  have := congrArg parse2 h
  rwa [parse2_pad2 m hm, parse2_pad2 n hn] at this

theorem strftime_data (t : DateTime) : (strftimeYmdHMS t).data =
    (Nat.repr t.year).data ++ ((pad2 t.month).data ++ ((pad2 t.day).data ++
      ((pad2 t.hour).data ++ ((pad2 t.minute).data ++ (pad2 t.second).data)))) := by
  simp [strftimeYmdHMS, String.data_append]

theorem strftime_inj {a b : DateTime} (ha : a.Valid) (hb : b.Valid)
    (h : strftimeYmdHMS a = strftimeYmdHMS b) : a = b := by
  obtain ⟨ha1, ha2, ha3, ha4, ha5, ha6, ha7, ha8, ha9⟩ := ha
  obtain ⟨hb1, hb2, hb3, hb4, hb5, hb6, hb7, hb8, hb9⟩ := hb
  have hd := congrArg String.data h
  rw [strftime_data, strftime_data] at hd
  obtain ⟨hy, hd⟩ := List.append_inj hd (by rw [year_len ha1 ha2, year_len hb1 hb2])
  obtain ⟨hmo, hd⟩ := List.append_inj hd
    (by rw [pad2_data_len a.month (by omega), pad2_data_len b.month (by omega)])
  obtain ⟨hda, hd⟩ := List.append_inj hd
    (by rw [pad2_data_len a.day (by omega), pad2_data_len b.day (by omega)])
  obtain ⟨hho, hd⟩ := List.append_inj hd
    (by rw [pad2_data_len a.hour (by omega), pad2_data_len b.hour (by omega)])
  obtain ⟨hmi, hse⟩ := List.append_inj hd
    (by rw [pad2_data_len a.minute (by omega), pad2_data_len b.minute (by omega)])
  have ey : a.year = b.year := repr_inj (String.ext hy)
  have emo : a.month = b.month := pad2_inj (by omega) (by omega) (String.ext hmo)
  have eda : a.day = b.day := pad2_inj (by omega) (by omega) (String.ext hda)
  have eho : a.hour = b.hour := pad2_inj (by omega) (by omega) (String.ext hho)
  have emi : a.minute = b.minute := pad2_inj (by omega) (by omega) (String.ext hmi)
  have ese : a.second = b.second := pad2_inj (by omega) (by omega) (String.ext hse)
  cases a; cases b; simp_all

theorem mkBranchName_inj {a b : DateTime} (ha : a.Valid) (hb : b.Valid)
    (hne : a ≠ b) : mkBranchName a ≠ mkBranchName b := by
  intro h
  apply hne
  apply strftime_inj ha hb
  have hd := congrArg String.data h
  rw [mkBranchName, mkBranchName, String.data_append, String.data_append] at hd
  exact String.ext (List.append_inj_right hd rfl)


/-! ### Grouping and selection lemmas -/

theorem addToDir_ne_nil (acc : List (String × List String)) (d p : String) :
    addToDir acc d p ≠ [] := by
  cases acc with
  | nil => simp [addToDir]
  | cons kv rest =>
    obtain ⟨k, v⟩ := kv
    simp only [addToDir]
    split <;> simp

theorem groupStep_ne_nil {acc : List (String × List String)} (h : acc ≠ [])
    (item : TreeItem) : groupStep acc item ≠ [] := by
  unfold groupStep
  split
  · exact addToDir_ne_nil acc _ _
  · exact h

theorem foldl_groupStep_ne_nil :
    ∀ (l : List TreeItem) (acc : List (String × List String)), acc ≠ [] →
      l.foldl groupStep acc ≠ [] := by
  intro l
  induction l with
  | nil => intro acc h; simpa using h
  | cons i t ih =>
    intro acc h
    simp only [List.foldl_cons]
    exact ih _ (groupStep_ne_nil h i)

theorem foldl_groupStep_all_false :
    ∀ (l : List TreeItem) (acc : List (String × List String)),
      (∀ i ∈ l, isJavaBlob i = false) → l.foldl groupStep acc = acc := by
  intro l
  induction l with
  | nil => intro acc _; rfl
  | cons i t ih =>
    intro acc h
    simp only [List.foldl_cons]
    have hi : isJavaBlob i = false := h i (by simp)
    have hstep : groupStep acc i = acc := by unfold groupStep; simp [hi]
    rw [hstep]
    exact ih acc (fun j hj => h j (by simp [hj]))

theorem groupByDir_eq_nil_of_no_match {tree : List TreeItem}
    (h : ∀ i ∈ tree, isJavaBlob i = false) : groupByDir tree = [] :=
  foldl_groupStep_all_false tree [] h

theorem groupByDir_ne_nil_of_match {tree : List TreeItem}
    (h : ∃ i ∈ tree, isJavaBlob i = true) : groupByDir tree ≠ [] := by
  obtain ⟨i, hmem, hi⟩ := h
  unfold groupByDir
  induction tree with
  | nil => simp at hmem
  | cons j t ih =>
    simp only [List.foldl_cons]
    rcases List.mem_cons.mp hmem with hj | ht
    · subst hj
      apply foldl_groupStep_ne_nil
      unfold groupStep
      simp [hi]
      exact addToDir_ne_nil [] _ _
    · by_cases hjb : isJavaBlob j = true
      · apply foldl_groupStep_ne_nil
        unfold groupStep
        simp [hjb]
        exact addToDir_ne_nil [] _ _
      · have hnj : groupStep [] j = [] := by
          unfold groupStep
          simp at hjb
          simp [hjb]
        rw [hnj]
        exact ih ht

theorem pick_files_snd_of_match (repo : Repo) (branch : Option String)
    (count : Nat) (rng : Rng) (h : ∃ i ∈ repo.tree, isJavaBlob i = true) :
    (pick_files repo branch count rng).2 = [hardcoded1, hardcoded2] := by
  have hne := groupByDir_ne_nil_of_match h
  have hie : (groupByDir repo.tree).isEmpty = false := by
    cases hg : groupByDir repo.tree with
    | nil => exact absurd hg hne
    | cons a l => rfl
  unfold pick_files
  simp [hie]

theorem pick_files_of_no_match (repo : Repo) (branch : String)
    (count : Nat) (rng : Rng) (h : ∀ i ∈ repo.tree, isJavaBlob i = false) :
    pick_files repo (some branch) count rng = ([.getTree branch], []) := by
  have hg := groupByDir_eq_nil_of_no_match h
  unfold pick_files
  simp [hg]

/-! ### Branch creation returns the timestamped name -/

theorem apply_ok_branch {repo : Repo} {files : List (String × String)}
    {now : DateTime} {b : String}
    (h : (apply_refactorings_to_files repo files now).2 = .ok b) :
    b = mkBranchName now := by
  unfold apply_refactorings_to_files at h
  split at h
  · simp at h
  · dsimp only at h
    split at h
    · simp at h
    · simp only at h
      exact (Except.ok.injEq _ _ ▸ h).symm


theorem buildPrBody_two (p d q e : String) :
    buildPrBody [(p, d), (q, e)] =
      ("## OpenAI LLM Refactoring Summary\n" ++ "\n" ++ "### File: `") ++ p ++
      ("`" ++ "\n" ++ "**Design Smells Detected:**" ++ "\n") ++ d ++
      ("\n" ++ "\n" ++ "\n" ++ "### File: `") ++ q ++
      ("`" ++ "\n" ++ "**Design Smells Detected:**" ++ "\n") ++ e ++
      ("\n" ++ "\n") := by
  simp only [buildPrBody, joinWith, List.foldl, String.append_assoc]



/-- Claim C1 (code-bug evaluation).  The claim says: on a tree containing
only `.java` blobs under exactly two parent directories and any count at
least 1, `pick_files` returns a non-empty selection inside a single one of
the two directories with length at most count.  Evaluating the code on such
a tree (directories `A` and `B`, count 1) shows the override at line 74:
the result is the fixed two-element list, of length 2 > 1, whose paths lie
in two distinct directories, neither of which is `A` or `B`.  The docstring
of `pick_files` (random directory, up to count files) and the spec treat
the override as a leftover slip, so the code, not the claim, is wrong. -/
theorem claim_C1_code_eval :
    (pick_files repoTwoDirs (some "master") 1 rng0).2 = [hardcoded1, hardcoded2] ∧
    ((pick_files repoTwoDirs (some "master") 1 rng0).2).length = 2 ∧
    dirname hardcoded1 ≠ dirname hardcoded2 ∧
    dirname hardcoded1 ≠ "A" ∧ dirname hardcoded2 ≠ "A" ∧
    dirname hardcoded1 ≠ "B" ∧ dirname hardcoded2 ≠ "B" := by decide

/-- Claim C2.  For every tree containing at least one blob whose path ends
in `.java`, every branch argument, every count and every random draw,
`pick_files` returns exactly the fixed two-element hard-coded list. -/
theorem claim_C2 (repo : Repo) (branch : Option String) (count : Nat) (rng : Rng)
    (h : ∃ i ∈ repo.tree, isJavaBlob i = true) :
    (pick_files repo branch count rng).2 = [hardcoded1, hardcoded2] :=
  pick_files_snd_of_match repo branch count rng h

/-- Witness for claim C2 at a concrete two-directory tree and count 7. -/
theorem claim_C2_witness :
    (∃ i ∈ repoTwoDirs.tree, isJavaBlob i = true) ∧
    (pick_files repoTwoDirs (some "master") 7 rng0).2 = [hardcoded1, hardcoded2] :=
  ⟨⟨⟨"blob", "A/x.java"⟩, by decide, by decide⟩,
   claim_C2 repoTwoDirs (some "master") 7 rng0
     ⟨⟨"blob", "A/x.java"⟩, by decide, by decide⟩⟩

/-- Claim C4.  Whenever the `TOKEN` variable is absent or empty,
`get_repo` raises the explicit error with an empty event trace: before the
client is built and before any network call. -/
theorem claim_C4 (env : Env) (repo : Repo) (h : pyFalsy env.token = true) :
    get_repo env repo =
      ([], .error "TOKEN and REPOSITORY must be set as environment variables.") := by
  unfold get_repo
  simp [h]

/-- Witness for claim C4 with an empty environment. -/
theorem claim_C4_witness :
    pyFalsy envNone.token = true ∧
    get_repo envNone repoTwoDirs =
      ([], .error "TOKEN and REPOSITORY must be set as environment variables.") :=
  ⟨rfl, claim_C4 envNone repoTwoDirs rfl⟩

/-- Claim C5.  Any two successful calls of `apply_refactorings_to_files`
at distinct second-resolution timestamps return branch names that carry
the timestamp segment and differ from each other. -/
theorem claim_C5 (repo1 repo2 : Repo) (f1 f2 : List (String × String))
    (t1 t2 : DateTime) (hv1 : t1.Valid) (hv2 : t2.Valid) (hne : t1 ≠ t2)
    (b1 b2 : String)
    (h1 : (apply_refactorings_to_files repo1 f1 t1).2 = .ok b1)
    (h2 : (apply_refactorings_to_files repo2 f2 t2).2 = .ok b2) :
    b1 = "openai-refactor-" ++ strftimeYmdHMS t1 ∧
    b2 = "openai-refactor-" ++ strftimeYmdHMS t2 ∧
    b1 ≠ b2 := by
  have e1 := apply_ok_branch h1
  have e2 := apply_ok_branch h2
  subst e1; subst e2
  exact ⟨rfl, rfl, mkBranchName_inj hv1 hv2 hne⟩

/-- Witness for claim C5 at two concrete timestamps one second apart. -/
theorem claim_C5_witness :
    (apply_refactorings_to_files demoRepo [] dtA).2 =
      .ok ("openai-refactor-" ++ strftimeYmdHMS dtA) ∧
    ("openai-refactor-" ++ strftimeYmdHMS dtA) ≠
      ("openai-refactor-" ++ strftimeYmdHMS dtB) := by
  refine ⟨rfl, ?_⟩
  exact (claim_C5 demoRepo demoRepo [] [] dtA dtB (by decide) (by decide)
    (by decide) _ _ rfl rfl).2.2

/-- Claim C6, amended.  The original claim keys only on the fork flag;
the code (line 153) requires the fork flag and a present parent.  Amended:
for a handle with fork flag set and a present parent, the creation call
targets the parent with an owner-qualified head; for a non-fork handle it
targets the handle itself with the bare branch name. -/
theorem claim_C6_amended (repo : Repo) (branch_name pr_body : String) :
    (repo.fork = true → repo.parent ≠ none →
      (create_pull_request repo branch_name pr_body).1 =
        [.createPull (repo.parent.getD "") (repo.ownerLogin ++ ":" ++ branch_name)
          "master" prTitleConst pr_body]) ∧
    (repo.fork = false →
      (create_pull_request repo branch_name pr_body).1 =
        [.createPull repo.fullName branch_name "master" prTitleConst pr_body]) := by
  constructor
  · intro hf hp
    unfold create_pull_request
    have hbeq : (repo.parent == none) = false := by
      cases hq : repo.parent with
      | none => exact absurd hq hp
      | some v => rfl
    simp [hf, hbeq]
  · intro hf
    unfold create_pull_request
    simp [hf]

/-- Counterexample to claim C6 as stated: a handle with fork flag true
but no parent reference is targeted at its own repository, not a parent. -/
theorem claim_C6_counterexample :
    repoForkNoParent.fork = true ∧ repoForkNoParent.parent = none ∧
    (create_pull_request repoForkNoParent "b" "x").1 =
      [.createPull repoForkNoParent.fullName "b" "master" prTitleConst "x"] ∧
    repoForkNoParent.fullName = "me/proj" ∧
    repoForkNoParent.ownerLogin ++ ":" ++ "b" ≠ "b" := by decide

/-- Witness for the amended claim C6 on a fork with parent and on a
non-fork. -/
theorem claim_C6_witness :
    (create_pull_request repoForkParent "br" "bd").1 =
      [.createPull "upstream/proj" "me:br" "master" prTitleConst "bd"] ∧
    (create_pull_request repoTwoDirs "br" "bd").1 =
      [.createPull "me/proj" "br" "master" prTitleConst "bd"] := by
  constructor
  · have h := (claim_C6_amended repoForkParent "br" "bd").1 rfl (by decide)
    simpa using h
  · have h := (claim_C6_amended repoTwoDirs "br" "bd").2 rfl
    simpa using h

/-- Claim C3.  For every tree with zero `.java` blobs, `pick_files`
returns the empty list, and the top-level run (with a usable token, so it
reaches the listing) prints the no-eligible-files message and performs no
LLM call, no branch creation, no file update and no pull-request
creation. -/
theorem claim_C3 (env : Env) (repo : Repo) (oracle : String → String → String)
    (rng : Rng) (now : DateTime) (htok : pyFalsy env.token = false)
    (hnone : ∀ i ∈ repo.tree, isJavaBlob i = false) :
    (pick_files repo (some "master") 2 rng).2 = [] ∧
    Event.printMsg "No eligible files found for refactoring." ∈
      (main env repo oracle rng now).1 ∧
    noSideEffects (main env repo oracle rng now).1 = true := by
  have hpick := pick_files_of_no_match repo "master" 2 rng hnone
  have hmain : main env repo oracle rng now =
      ([.connect repoNameConst,
        .printMsg ("Connected to GitHub repository: " ++ repoNameConst),
        .getTree "master",
        .printMsg "No eligible files found for refactoring."], 0) := by
    unfold main runPipeline get_repo
    simp [htok, hpick, repoNameConst]
  refine ⟨by rw [hpick], ?_, ?_⟩ <;> rw [hmain] <;> decide

/-- Claim C9.  Whenever the pipeline raises, `main` catches it at the
top level, appends the error print to the trace, and exits with status
0. -/
theorem claim_C9 (env : Env) (repo : Repo) (oracle : String → String → String)
    (rng : Rng) (now : DateTime) (ev : List Event) (e : String)
    (h : runPipeline env repo oracle rng now = (ev, .error e)) :
    main env repo oracle rng now =
      (ev ++ [.printMsg ("An error occurred: " ++ e)], 0) := by
  unfold main
  rw [h]

/-- Witness for claim C9 on a run that fails for lack of a token. -/
theorem claim_C9_witness :
    runPipeline envNone repoTwoDirs oracle0 rng0 dtA =
      ([], .error "TOKEN and REPOSITORY must be set as environment variables.") ∧
    main envNone repoTwoDirs oracle0 rng0 dtA =
      ([.printMsg "An error occurred: TOKEN and REPOSITORY must be set as environment variables."], 0) := by
  refine ⟨rfl, ?_⟩
  rw [claim_C9 envNone repoTwoDirs oracle0 rng0 dtA []
    "TOKEN and REPOSITORY must be set as environment variables." rfl]
  decide

/-- Claim C7.  With the file content available and the key set,
`refactor_file_with_llm` issues exactly two LLM requests in order: the
first prompt embeds the original content, the second embeds the first
response and the original content, and the function returns the first
response as the smell report and the second as the refactored content. -/
theorem claim_C7 (env : Env) (oracle : String → String → String) (repo : Repo)
    (file_path branch llm_name : String) (obj : FileObj) (k : String)
    (hc : repo.contents file_path = some obj) (hk : env.openai_key = some k) :
    ((refactor_file_with_llm repo file_path branch (call_openai env oracle)
        llm_name).1.filter Event.isLlm =
      [.llmCall (prompt_design_smells obj.content) "Design Smell Finder",
       .llmCall (prompt_refactor
           (oracle (prompt_design_smells obj.content) "Design Smell Finder")
           obj.content) "Refactoring Expert"]) ∧
    occursIn obj.content (prompt_design_smells obj.content) ∧
    occursIn (oracle (prompt_design_smells obj.content) "Design Smell Finder")
      (prompt_refactor
        (oracle (prompt_design_smells obj.content) "Design Smell Finder")
        obj.content) ∧
    occursIn obj.content
      (prompt_refactor
        (oracle (prompt_design_smells obj.content) "Design Smell Finder")
        obj.content) ∧
    (refactor_file_with_llm repo file_path branch (call_openai env oracle)
        llm_name).2 =
      .ok (oracle (prompt_design_smells obj.content) "Design Smell Finder",
           oracle (prompt_refactor
               (oracle (prompt_design_smells obj.content) "Design Smell Finder")
               obj.content) "Refactoring Expert",
           llm_name) := by
  have hred : refactor_file_with_llm repo file_path branch
      (call_openai env oracle) llm_name =
    ([.getContents file_path,
      .printMsg ("[OpenAI - Design Smell Finder] Prompt (first 100 chars): " ++
        (prompt_design_smells obj.content).take 100 ++ "...\n"),
      .llmCall (prompt_design_smells obj.content) "Design Smell Finder",
      .printMsg ("[OpenAI - Refactoring Expert] Prompt (first 100 chars): " ++
        (prompt_refactor
          (oracle (prompt_design_smells obj.content) "Design Smell Finder")
          obj.content).take 100 ++ "...\n"),
      .llmCall (prompt_refactor
          (oracle (prompt_design_smells obj.content) "Design Smell Finder")
          obj.content) "Refactoring Expert"],
     .ok (oracle (prompt_design_smells obj.content) "Design Smell Finder",
          oracle (prompt_refactor
              (oracle (prompt_design_smells obj.content) "Design Smell Finder")
              obj.content) "Refactoring Expert",
          llm_name)) := by
    unfold refactor_file_with_llm call_openai
    simp [hc, hk]
  refine ⟨?_, ?_, ?_, ?_, ?_⟩
  · rw [hred]
    rfl
  · exact ⟨dsHead, dsTail, by simp only [prompt_design_smells]⟩
  · exact ⟨rfHead, rfMid ++ obj.content,
      by simp only [prompt_refactor, String.append_assoc]⟩
  · refine ⟨rfHead ++
      (oracle (prompt_design_smells obj.content) "Design Smell Finder") ++ rfMid,
      "", ?_⟩
    simp [prompt_refactor, String.append_assoc]
  · rw [hred]

/-- Claim C10, amended.  The original claim promises a `KeyError` at the
first LLM call for every tree with a selected file; since the selection is
overridden to the hard-coded paths, the run can instead fail earlier with
a 404 when the first hard-coded path has no contents.  Amended with the
content fetch succeeding: the run fails with the `KeyError` from
`call_openai`, after the connect and tree-listing calls, and performs no
LLM request, no branch creation, no update and no pull request. -/
theorem claim_C10_amended (env : Env) (repo : Repo)
    (oracle : String → String → String) (rng : Rng) (now : DateTime)
    (htok : pyFalsy env.token = false) (hkey : env.openai_key = none)
    (hmatch : ∃ i ∈ repo.tree, isJavaBlob i = true)
    (obj : FileObj) (hc : repo.contents hardcoded1 = some obj) :
    (runPipeline env repo oracle rng now).2 = .error "KeyError: OPENAI_KEY" ∧
    Event.connect repoNameConst ∈ (runPipeline env repo oracle rng now).1 ∧
    Event.getTree "master" ∈ (runPipeline env repo oracle rng now).1 ∧
    noSideEffects (runPipeline env repo oracle rng now).1 = true := by
  have hne := groupByDir_ne_nil_of_match hmatch
  refine ⟨?_, ?_, ?_, ?_⟩ <;>
    simp [runPipeline, get_repo, htok, pick_files, hne, processFiles,
      refactor_file_with_llm, call_openai, hkey, hc, noSideEffects,
      Event.isLlm, Event.isCreateRef, Event.isUpdate, Event.isPull,
      repoNameConst]

/-- Counterexample to claim C10 as stated: token set, key absent, a
`.java` blob present (so a file is selected), but no contents for the
hard-coded path: the run fails with a 404, not with the `KeyError` of an
attempted LLM call. -/
theorem claim_C10_counterexample :
    pyFalsy envNoKey.token = false ∧ envNoKey.openai_key = none ∧
    (pick_files repoJavaNoContents (some "master") 2 rng0).2 =
      [hardcoded1, hardcoded2] ∧
    (runPipeline envNoKey repoJavaNoContents oracle0 rng0 dtA).2 =
      .error ("404: " ++ hardcoded1) ∧
    ((runPipeline envNoKey repoJavaNoContents oracle0 rng0 dtA).1.filter
      Event.isLlm) = [] ∧
    "404: " ++ hardcoded1 ≠ "KeyError: OPENAI_KEY" := by decide

theorem create_pull_shape (repo : Repo) (bn body : String) :
    ∃ target head url, create_pull_request repo bn body =
      ([.createPull target head "master" prTitleConst body], .ok url) := by
  unfold create_pull_request
  by_cases hf : (repo.fork && !(repo.parent == none)) = true
  · refine ⟨repo.parent.getD "", repo.ownerLogin ++ ":" ++ bn,
      "https://github.com/" ++ repo.parent.getD "" ++ "/pull/1", ?_⟩
    simp [hf]
  · have hf2 : (repo.fork && !(repo.parent == none)) = false := by simpa using hf
    refine ⟨repo.fullName, bn,
      "https://github.com/" ++ repo.fullName ++ "/pull/1", ?_⟩
    simp [hf2]

/-- Claim C8.  When the run selects the two files and every external
call succeeds, each file yields its (smell-report, refactored-content)
pair — visible as one update commit per file carrying that refactored
content — and the pull-request body contains both file paths and both
smell reports in selection order. -/
theorem claim_C8 (env : Env) (repo : Repo) (oracle : String → String → String)
    (rng : Rng) (now : DateTime)
    (htok : pyFalsy env.token = false) (k : String)
    (hkey : env.openai_key = some k)
    (hmatch : ∃ i ∈ repo.tree, isJavaBlob i = true)
    (o1 o2 : FileObj)
    (hc1 : repo.contents hardcoded1 = some o1)
    (hc2 : repo.contents hardcoded2 = some o2)
    (sha : String) (hsha : repo.branchSha "master" = some sha) :
    (pick_files repo (some "master") 2 rng).2 = [hardcoded1, hardcoded2] ∧
    (runPipeline env repo oracle rng now).2 = .ok () ∧
    ((runPipeline env repo oracle rng now).1.filter Event.isUpdate =
      [.updateFile hardcoded1 commitMessageConst
         (oracle (prompt_refactor
             (oracle (prompt_design_smells o1.content) "Design Smell Finder")
             o1.content) "Refactoring Expert")
         o1.sha (mkBranchName now),
       .updateFile hardcoded2 commitMessageConst
         (oracle (prompt_refactor
             (oracle (prompt_design_smells o2.content) "Design Smell Finder")
             o2.content) "Refactoring Expert")
         o2.sha (mkBranchName now)]) ∧
    (∃ target head s0 s1 s2 s3 s4,
      (runPipeline env repo oracle rng now).1.filter Event.isPull =
        [.createPull target head "master" prTitleConst
          (s0 ++ hardcoded1 ++ s1 ++
           (oracle (prompt_design_smells o1.content) "Design Smell Finder") ++
           s2 ++ hardcoded2 ++ s3 ++
           (oracle (prompt_design_smells o2.content) "Design Smell Finder") ++
           s4)]) := by
  have hne := groupByDir_ne_nil_of_match hmatch
  have hne12 : (hardcoded1 = hardcoded2) = False := by
    simp [hardcoded1, hardcoded2]
  obtain ⟨target, head, url, hcp⟩ := create_pull_shape repo (mkBranchName now)
    (buildPrBody [(hardcoded1,
        oracle (prompt_design_smells o1.content) "Design Smell Finder"),
      (hardcoded2,
        oracle (prompt_design_smells o2.content) "Design Smell Finder")])
  refine ⟨pick_files_snd_of_match repo (some "master") 2 rng hmatch, ?_, ?_, ?_⟩
  · simp [runPipeline, get_repo, htok, pick_files, hne, processFiles,
      refactor_file_with_llm, call_openai, hkey, hc1, hc2, dictInsert, hne12,
      apply_refactorings_to_files, hsha, updateFiles, hcp, repoNameConst]
  · simp [runPipeline, get_repo, htok, pick_files, hne, processFiles,
      refactor_file_with_llm, call_openai, hkey, hc1, hc2, dictInsert, hne12,
      apply_refactorings_to_files, hsha, updateFiles, hcp, repoNameConst,
      Event.isUpdate]
  · refine ⟨target, head,
      "## OpenAI LLM Refactoring Summary\n" ++ "\n" ++ "### File: `",
      "`" ++ "\n" ++ "**Design Smells Detected:**" ++ "\n",
      "\n" ++ "\n" ++ "\n" ++ "### File: `",
      "`" ++ "\n" ++ "**Design Smells Detected:**" ++ "\n",
      "\n" ++ "\n", ?_⟩
    simp [runPipeline, get_repo, htok, pick_files, hne, processFiles,
      refactor_file_with_llm, call_openai, hkey, hc1, hc2, dictInsert, hne12,
      apply_refactorings_to_files, hsha, updateFiles, hcp, repoNameConst,
      Event.isPull]
    simp [buildPrBody_two]


/-- Witness for claim C3 on a repository with no `.java` blob. -/
theorem claim_C3_witness :
    pyFalsy envFull.token = false ∧
    (∀ i ∈ repoNoJava.tree, isJavaBlob i = false) ∧
    (pick_files repoNoJava (some "master") 2 rng0).2 = [] ∧
    Event.printMsg "No eligible files found for refactoring." ∈
      (main envFull repoNoJava oracle0 rng0 dtA).1 ∧
    noSideEffects (main envFull repoNoJava oracle0 rng0 dtA).1 = true := by
  have h := claim_C3 envFull repoNoJava oracle0 rng0 dtA rfl (by decide)
  exact ⟨rfl, by decide, h.1, h.2.1, h.2.2⟩

/-- Witness for claim C7 on the demo repository. -/
theorem claim_C7_witness :
    demoRepo.contents hardcoded1 = some ⟨"sha1", "class RssReader"⟩ ∧
    envFull.openai_key = some "key" ∧
    ((refactor_file_with_llm demoRepo hardcoded1 "master"
        (call_openai envFull oracle0) "OpenAI").1.filter Event.isLlm).length = 2 ∧
    (refactor_file_with_llm demoRepo hardcoded1 "master"
        (call_openai envFull oracle0) "OpenAI").2 =
      .ok (oracle0 (prompt_design_smells "class RssReader")
             "Design Smell Finder",
           oracle0 (prompt_refactor
               (oracle0 (prompt_design_smells "class RssReader")
                 "Design Smell Finder") "class RssReader")
             "Refactoring Expert",
           "OpenAI") := by
  have h := claim_C7 envFull oracle0 demoRepo hardcoded1 "master" "OpenAI"
    ⟨"sha1", "class RssReader"⟩ "key" (by decide) rfl
  refine ⟨by decide, rfl, ?_, ?_⟩
  · rw [h.1]
    rfl
  · exact h.2.2.2.2

/-- Witness for claim C8 on the demo repository with both contents
present. -/
theorem claim_C8_witness :
    (∃ i ∈ demoRepo.tree, isJavaBlob i = true) ∧
    (pick_files demoRepo (some "master") 2 rng0).2 = [hardcoded1, hardcoded2] ∧
    (runPipeline envFull demoRepo oracle0 rng0 dtA).2 = .ok () ∧
    ((runPipeline envFull demoRepo oracle0 rng0 dtA).1.filter
      Event.isUpdate).length = 2 := by
  have h := claim_C8 envFull demoRepo oracle0 rng0 dtA rfl "key" rfl
    ⟨⟨"blob", "A/x.java"⟩, by decide, by decide⟩
    ⟨"sha1", "class RssReader"⟩ ⟨"sha2", "class FeedService"⟩
    (by decide) (by decide) "basesha" (by decide)
  exact ⟨⟨⟨"blob", "A/x.java"⟩, by decide, by decide⟩, h.1, h.2.1,
    by rw [h.2.2.1]; rfl⟩

/-- Witness for the amended claim C10 on the demo repository. -/
theorem claim_C10_witness :
    pyFalsy envNoKey.token = false ∧ envNoKey.openai_key = none ∧
    (runPipeline envNoKey demoRepo oracle0 rng0 dtA).2 =
      .error "KeyError: OPENAI_KEY" ∧
    noSideEffects (runPipeline envNoKey demoRepo oracle0 rng0 dtA).1 = true := by
  have h := claim_C10_amended envNoKey demoRepo oracle0 rng0 dtA rfl rfl
    ⟨⟨"blob", "A/x.java"⟩, by decide, by decide⟩
    ⟨"sha1", "class RssReader"⟩ (by decide)
  exact ⟨rfl, rfl, h.1, h.2.2.2⟩

end AutoRefactor
